import Mathlib

/-!
Shallow embedding of `src/src/ripple/waveforms/X_NRTidalv2.py` (the NRTidalv2
tidal corrections to a frequency-domain compact-binary waveform) and proofs
about it.

Conventions of the embedding:
* jax floating-point arithmetic is modelled over `ℝ` (complex strain over `ℂ`);
  a Python float exponent `x ** e` becomes `Real.rpow` (`x ^ (e : ℝ)`) and an
  integer exponent becomes the monoid power.
* The per-sample functions (`get_kappa`, `get_tidal_phase`, ...) act on one
  frequency sample: every jax operation in the source is elementwise, so the
  array semantics is the pointwise one; `jnp.zeros_like f` / `jnp.ones_like f`
  become the constants `0` / `1`.  The top-level generators, whose claims speak
  about whole grids, are modelled over `List ℝ` / `List ℂ`.
* The externally supplied collaborators (the baseline BBH generator and the
  chirp-mass conversion `Mc_eta_to_ms`) are out of scope for the source file
  and enter as explicit function parameters.
-/

set_option linter.unusedVariables false

noncomputable section

namespace NRTidalv2

/-- Modelled from the spec: the fixed mass-to-time constant `gt` from the
constants module (not among the sources): one solar mass in geometrized time
units, G * MSUN / C^3 seconds. -/
def gt : ℝ := 6.67430e-11 * 1.988409902147041637325262574352366540e30 / 299792458.0 ^ (3 : ℕ)

/-- Modelled from the spec: the speed of light in m/s, from the constants
module (not among the sources). -/
def C : ℝ := 299792458.0

/-- Modelled from the spec: the Mpc-to-meter constant from the constants
module (not among the sources). -/
def m_per_Mpc : ℝ := 3.085677581491367278913937957796471611e22

/-- Modelled from the spec: the constant `PI` from the constants module (not
among the sources), the double-precision value of pi. -/
def PI : ℝ := 3.141592653589793

/-- The intrinsic parameter tuple `theta = (m1, m2, chi1, chi2, lambda1,
lambda2)` that the source unpacks from an array. -/
structure Theta where
  m1 : ℝ
  m2 : ℝ
  chi1 : ℝ
  chi2 : ℝ
  lambda1 : ℝ
  lambda2 : ℝ

/-- Exchange of the two body labels: (m1, chi1, lambda1) with (m2, chi2,
lambda2). -/
def Theta.swap (theta : Theta) : Theta :=
  ⟨theta.m2, theta.m1, theta.chi2, theta.chi1, theta.lambda2, theta.lambda1⟩

/-- `get_kappa` (source lines 62-79): the total effective tidal coupling. -/
def get_kappa (theta : Theta) : ℝ :=
  let m1 := theta.m1
  let m2 := theta.m2
  let lambda1 := theta.lambda1
  let lambda2 := theta.lambda2
  let m1_s := m1 * gt
  let m2_s := m2 * gt
  let M_s := m1_s + m2_s
  let eta := m1_s * m2_s / M_s ^ (2.0 : ℝ)
  let X1 := m1_s / M_s
  let X2 := m2_s / M_s
  let term1 := (1.0 + 12.0 * m2 / m1) * X1 ^ (5.0 : ℝ) * lambda1
  let term2 := (1.0 + 12.0 * m1 / m2) * X2 ^ (5.0 : ℝ) * lambda2
  3 / 13 * (term1 + term2)

/-- `get_tidal_phase` (source lines 82-123): the tidal phase `psi_T` at one
(already mass-scaled) frequency sample `f`. -/
def get_tidal_phase (f : ℝ) (theta : Theta) (kappa : ℝ) : ℝ :=
  let m1_s := theta.m1 * gt
  let m2_s := theta.m2 * gt
  let M_s := m1_s + m2_s
  let eta := m1_s * m2_s / M_s ^ (2.0 : ℝ)
  let X1 := m1_s / M_s
  let X2 := m2_s / M_s
  let M_omega := PI * f * M_s
  let PN_x := M_omega ^ ((2.0 : ℝ) / 3.0)
  let PN_x_2 := PN_x * PN_x
  let PN_x_3over2 := PN_x ^ ((3.0 : ℝ) / 2.0)
  let PN_x_5over2 := PN_x ^ ((5.0 : ℝ) / 2.0)
  let c_Newt := (2.4375 : ℝ)
  let n_1 := (-17.428 : ℝ)
  let n_3over2 := (31.867 : ℝ)
  let n_2 := (-26.414 : ℝ)
  let n_5over2 := (62.362 : ℝ)
  let d_1 := n_1 - 2.496
  let d_3over2 := (36.089 : ℝ)
  let tidal_phase := -kappa * c_Newt / (X1 * X2) * PN_x_5over2
  let num := 1.0 + n_1 * PN_x + n_3over2 * PN_x_3over2 + n_2 * PN_x_2
    + n_5over2 * PN_x_5over2
  let den := 1.0 + d_1 * PN_x + d_3over2 * PN_x_3over2
  let ratio := num / den
  let psi_T := -kappa * (39 / (16 * eta)) * f ^ ((5.0 : ℝ) / 2.0) * ratio
  psi_T

/-- `_compute_quadparam_octparam` (source lines 126-151): the spin-induced
quadrupole and octupole coefficients of one body from its tidal
deformability, low-deformability polynomial branch for `0 <= lambda_ <= 1`,
universal-relation branch otherwise. -/
def _compute_quadparam_octparam (lambda_ : ℝ) : ℝ × ℝ :=
  let log_quadparam :=
    if 0 ≤ lambda_ ∧ lambda_ ≤ 1 then
      1 + lambda_ * (0.427688866723244
        + lambda_ * (-0.324336526985068 + lambda_ * 0.1107439432180572))
    else
      let log_lambda := Real.log lambda_
      0.1940 + 0.09163 * log_lambda + 0.04812 * log_lambda ^ (2.0 : ℝ)
        - 0.004286 * log_lambda ^ (3 : ℕ) + 0.00012450 * log_lambda ^ (4 : ℕ)
  let log_octparam := 0.003131 + 2.071 * log_quadparam
    - 0.7152 * log_quadparam ^ (2 : ℕ) + 0.2458 * log_quadparam ^ (3 : ℕ)
    - 0.03309 * log_quadparam ^ (4 : ℕ)
  (Real.exp log_quadparam - 1, Real.exp log_octparam - 1)

/-- `get_spin_phase_correction` (source lines 155-194): the spin-squared phase
series is computed and then overridden by `psi_SS = jnp.zeros_like(f)` (the
source's FIXME override), so the returned value is `0` at every sample. -/
def get_spin_phase_correction (f : ℝ) (theta : Theta) : ℝ :=
  let m1_s := theta.m1 * gt
  let m2_s := theta.m2 * gt
  let M_s := m1_s + m2_s
  let eta := m1_s * m2_s / M_s ^ (2.0 : ℝ)
  let X1 := m1_s / M_s
  let X2 := m2_s / M_s
  let X1sq := X1 * X1
  let X2sq := X2 * X2
  let chi1_sq := theta.chi1 * theta.chi1
  let chi2_sq := theta.chi2 * theta.chi2
  let qo1 := _compute_quadparam_octparam theta.lambda1
  let qo2 := _compute_quadparam_octparam theta.lambda2
  let quadparam1 := qo1.1
  let octparam1 := qo1.2
  let quadparam2 := qo2.1
  let octparam2 := qo2.2
  let SS_2 := -50 * quadparam1 * X1sq * chi1_sq + -50 * quadparam2 * X2sq * chi2_sq
  let SS_3 := 5 / 84 * (9407 + 8218 * X1 - 2016 * X1 ^ (2 : ℕ)) * quadparam1
      * X1 ^ (2 : ℕ) * theta.chi1 ^ (2 : ℕ)
    + 5 / 84 * (9407 + 8218 * X2 - 2016 * X2 ^ (2 : ℕ)) * quadparam2
      * X2 ^ (2 : ℕ) * theta.chi2 ^ (2 : ℕ)
  let SS_3p5 := -400 * PI * (quadparam1 - 1) * chi1_sq * X1sq
    - 400 * PI * (quadparam2 - 1) * chi2_sq * X2sq
    + (10 * ((X1sq + 308 / 3 * X1) * theta.chi1 + (X2 - 89 / 3 * X2) * theta.chi2)
        * (quadparam1 - 1) * X1sq * chi1_sq
      + 10 * ((X2sq + 308 / 3 * X2) * theta.chi2 + (X1sq - 89 / 3 * X1) * theta.chi1)
        * (quadparam2 - 1) * X2sq * chi2_sq
      - 440 * octparam1 * X1 * X1sq * chi1_sq * theta.chi1
      - 440 * octparam2 * X2 * X2sq * chi2_sq * theta.chi2)
  let psi_SS := 3 / (128 * eta)
    * (SS_2 * f ^ (-(1.0 : ℝ) / 2.0) + SS_3 * f ^ ((1.0 : ℝ) / 2.0) + SS_3p5 * f)
  let psi_SS := (0 : ℝ)
  psi_SS

/-- `get_tidal_amplitude` (source lines 197-225): the tidal amplitude at a
physical frequency sample.  Note the source converts the mass twice: `M_s`
is already `(m1 + m2) * gt` and then `M_sec = M_s * gt`. -/
def get_tidal_amplitude (f : ℝ) (theta : Theta) (kappa : ℝ) (dL : ℝ) : ℝ :=
  let m1_s := theta.m1 * gt
  let m2_s := theta.m2 * gt
  let M_s := m1_s + m2_s
  let eta := m1_s * m2_s / M_s ^ (2.0 : ℝ)
  let M_sec := M_s * gt
  let prefac := 9.0 * kappa
  let x := (PI * M_sec * f) ^ ((2.0 : ℝ) / 3.0)
  let n1 := (4.157407407407407 : ℝ)
  let n289 := (2519.111111111111 : ℝ)
  let d := (13477.8073677 : ℝ)
  let poly := (1.0 + n1 * x + n289 * x ^ (2.89 : ℝ)) / (1 + d * x ^ (4.0 : ℝ))
  let ampT := -prefac * x ^ (3.25 : ℝ) * poly
  let dist_s := dL * m_per_Mpc / C
  ampT / dist_s

/-- `_get_merger_frequency` (source lines 228-265): the physical merger
frequency in Hz; `kappa = none` models the Python default `kappa=None`
(recompute via `get_kappa`). -/
def _get_merger_frequency (theta : Theta) (kappa : Option ℝ) : ℝ :=
  let m1_s := theta.m1 * gt
  let m2_s := theta.m2 * gt
  let M_s := m1_s + m2_s
  let q := m1_s / m2_s
  let X1 := m1_s / M_s
  let X2 := m2_s / M_s
  let kappa := match kappa with
    | none => get_kappa theta
    | some k => k
  let a_0 := (0.3586 : ℝ)
  let n_1 := (3.35411203e-2 : ℝ)
  let n_2 := (4.31460284e-5 : ℝ)
  let d_1 := (7.54224145e-2 : ℝ)
  let d_2 := (2.23626859e-4 : ℝ)
  let kappa_sq := kappa ^ (2.0 : ℝ)
  let num := 1.0 + n_1 * kappa + n_2 * kappa ^ (2.0 : ℝ)
  let den := 1.0 + d_1 * kappa + d_2 * kappa ^ (2.0 : ℝ)
  let Q_0 := a_0 * Real.sqrt (X2 / X1)
  let Momega_merger := Q_0 * (num / den)
  Momega_merger / M_s / (2 * PI)

/-- The dimensionless angular merger frequency: the value `Momega_merger`
computed inside `_get_merger_frequency` (source lines 248-260), as a function
of the intrinsic parameters and a given kappa. -/
def Momega_merger (theta : Theta) (kappa : ℝ) : ℝ :=
  let m1_s := theta.m1 * gt
  let m2_s := theta.m2 * gt
  let M_s := m1_s + m2_s
  let X1 := m1_s / M_s
  let X2 := m2_s / M_s
  let a_0 := (0.3586 : ℝ)
  let n_1 := (3.35411203e-2 : ℝ)
  let n_2 := (4.31460284e-5 : ℝ)
  let d_1 := (7.54224145e-2 : ℝ)
  let d_2 := (2.23626859e-4 : ℝ)
  let kappa_sq := kappa ^ (2.0 : ℝ)
  let num := 1.0 + n_1 * kappa + n_2 * kappa ^ (2.0 : ℝ)
  let den := 1.0 + d_1 * kappa + d_2 * kappa ^ (2.0 : ℝ)
  let Q_0 := a_0 * Real.sqrt (X2 / X1)
  Q_0 * (num / den)

/-- `jnp.heaviside x h0`: 0 for x < 0, h0 at 0, 1 for x > 0. -/
def heaviside (x h0 : ℝ) : ℝ :=
  if x < 0 then 0 else if x = 0 then h0 else 1

/-- `_planck_taper` (source lines 270-289), at one sample `t`. -/
def _planck_taper (t t1 t2 : ℝ) : ℝ :=
  let middle := 1 / (Real.exp ((t2 - t1) / (t - t1) + (t2 - t1) / (t - t2)) + 1)
  heaviside (t1 - t) 1 * 0
    + heaviside (t - t1) 1 * heaviside (t2 - t) 1 * middle
    + heaviside (t - t2) 1 * 1

/-- `get_planck_taper` (source lines 291-313): the taper is computed and then
overridden by the safety override `A_P = jnp.zeros_like(f)`, so the returned
value is `0` at every sample. -/
def get_planck_taper (f : ℝ) (theta : Theta) (kappa : ℝ) : ℝ :=
  let f_merger := _get_merger_frequency theta (some kappa)
  let f_start := f_merger
  let f_end := 1.2 * f_merger
  let A_P := _planck_taper f f_start f_end
  let A_P := (0 : ℝ)
  A_P

/-- `_gen_NRTidalv2` (source lines 315-344) at one frequency sample with the
matching baseline BBH strain sample.  `theta_extrinsic` is the parameter list
`params[6:]`, of which only `theta_extrinsic[0]` (the distance) is used. -/
def _gen_NRTidalv2 (f : ℝ) (theta_intrinsic : Theta) (theta_extrinsic : List ℝ)
    (h0_bbh : ℂ) : ℂ :=
  let M_s := (theta_intrinsic.m1 + theta_intrinsic.m2) * gt
  let kappa := get_kappa theta_intrinsic
  let A_bbh := Complex.abs h0_bbh
  let psi_bbh := h0_bbh / (A_bbh : ℂ)
  let A_T := get_tidal_amplitude f theta_intrinsic kappa (theta_extrinsic.getD 0 0)
  let A_P := (1 : ℝ) - get_planck_taper f theta_intrinsic kappa
  let psi_T := get_tidal_phase (f * M_s) theta_intrinsic kappa
  let psi_SS := get_spin_phase_correction (f * M_s) theta_intrinsic
  (A_P : ℂ) * (h0_bbh + (A_T : ℂ) * Complex.exp (Complex.I * -psi_bbh))
    * Complex.exp (Complex.I * -((psi_T + psi_SS : ℝ) : ℂ))

/-- `gen_NRTidalv2` (source lines 346-392) over a frequency grid.  The
baseline BBH generator (imported in the source) and `Mc_eta_to_ms` (from the
package, not among the sources) are black-box collaborators passed as
function parameters.  An unrecognized approximant string returns
`jnp.zeros_like(f)`. -/
def gen_NRTidalv2 (bbh_gen : List ℝ → List ℝ → ℝ → List ℂ)
    (ms_conv : ℝ → ℝ → ℝ × ℝ) (f : List ℝ) (params : List ℝ) (f_ref : ℝ)
    (IMRphenom : String) : List ℂ :=
  let mm := ms_conv (params.getD 0 0) (params.getD 1 0)
  let theta_intrinsic : Theta :=
    ⟨mm.1, mm.2, params.getD 2 0, params.getD 3 0, params.getD 4 0, params.getD 5 0⟩
  let theta_extrinsic := params.drop 6
  let bbh_params := [params.getD 0 0, params.getD 1 0, params.getD 2 0, params.getD 3 0]
    ++ theta_extrinsic
  if IMRphenom = "IMRPhenomD" then
    let h0_bbh := bbh_gen f bbh_params f_ref
    List.zipWith (fun fk hk => _gen_NRTidalv2 fk theta_intrinsic theta_extrinsic hk)
      f h0_bbh
  else
    f.map (fun _ => 0)

/-- `gen_NRTidalv2_hphc` (source lines 395-423): the last parameter is the
inclination; the rest is passed to `gen_NRTidalv2` and the result projected
onto the plus and cross polarizations. -/
def gen_NRTidalv2_hphc (bbh_gen : List ℝ → List ℝ → ℝ → List ℂ)
    (ms_conv : ℝ → ℝ → ℝ × ℝ) (f : List ℝ) (params : List ℝ) (f_ref : ℝ)
    (IMRphenom : String) : List ℂ × List ℂ :=
  let iota := (params.getLast?).getD 0
  let h0 := gen_NRTidalv2 bbh_gen ms_conv f params.dropLast f_ref IMRphenom
  let hp := h0.map (fun z => z * (((1 : ℝ) / 2 * (1 + Real.cos iota ^ (2 : ℕ)) : ℝ) : ℂ))
  let hc := h0.map (fun z => -Complex.I * z * ((Real.cos iota : ℝ) : ℂ))
  (hp, hc)

/-! ## Basic lemmas about the overridden components -/

lemma get_spin_phase_correction_eq_zero (f : ℝ) (theta : Theta) :
    get_spin_phase_correction f theta = 0 := rfl

lemma get_planck_taper_eq_zero (f : ℝ) (theta : Theta) (kappa : ℝ) :
    get_planck_taper f theta kappa = 0 := rfl

/-! ## The zero-deformability (BBH) limit -/

lemma get_kappa_lambda_zero (m1 m2 chi1 chi2 : ℝ) :
    get_kappa ⟨m1, m2, chi1, chi2, 0, 0⟩ = 0 := by
  simp only [get_kappa]
  ring

lemma get_tidal_phase_kappa_zero (f : ℝ) (theta : Theta) :
    get_tidal_phase f theta 0 = 0 := by
  simp only [get_tidal_phase]
  ring

lemma get_tidal_amplitude_kappa_zero (f : ℝ) (theta : Theta) (dL : ℝ) :
    get_tidal_amplitude f theta 0 dL = 0 := by
  simp only [get_tidal_amplitude]
  ring

lemma gen_scalar_bbh_limit (f m1 m2 chi1 chi2 : ℝ) (theta_extrinsic : List ℝ)
    (h0_bbh : ℂ) :
    _gen_NRTidalv2 f ⟨m1, m2, chi1, chi2, 0, 0⟩ theta_extrinsic h0_bbh = h0_bbh := by
  simp only [_gen_NRTidalv2, get_kappa_lambda_zero, get_tidal_amplitude_kappa_zero,
    get_tidal_phase_kappa_zero, get_spin_phase_correction_eq_zero,
    get_planck_taper_eq_zero]
  push_cast
  simp

/-! ## Swap (body-exchange) symmetry -/

lemma swap_m_add (theta : Theta) :
    theta.swap.m1 + theta.swap.m2 = theta.m1 + theta.m2 := by
  simp only [Theta.swap]
  ring

lemma get_kappa_swap (theta : Theta) : get_kappa theta.swap = get_kappa theta := by
  obtain ⟨m1, m2, c1, c2, l1, l2⟩ := theta
  simp only [get_kappa, Theta.swap]
  rw [show m2 * gt + m1 * gt = m1 * gt + m2 * gt from by ring]
  ring

lemma get_tidal_phase_swap (f : ℝ) (theta : Theta) (kappa : ℝ) :
    get_tidal_phase f theta.swap kappa = get_tidal_phase f theta kappa := by
  obtain ⟨m1, m2, c1, c2, l1, l2⟩ := theta
  simp only [get_tidal_phase, Theta.swap]
  rw [show m2 * gt + m1 * gt = m1 * gt + m2 * gt from by ring]
  ring

lemma get_tidal_amplitude_swap (f : ℝ) (theta : Theta) (kappa dL : ℝ) :
    get_tidal_amplitude f theta.swap kappa dL = get_tidal_amplitude f theta kappa dL := by
  obtain ⟨m1, m2, c1, c2, l1, l2⟩ := theta
  simp only [get_tidal_amplitude, Theta.swap]
  rw [show m2 * gt + m1 * gt = m1 * gt + m2 * gt from by ring]

/-! ## Claim theorems -/

/-- C1: swapping the body labels (m1, chi1, lambda1) with (m2, chi2, lambda2)
leaves both `get_kappa` and the combined strain `_gen_NRTidalv2` (with the
same baseline BBH strain) unchanged, for every frequency sample, extrinsic
parameters and baseline strain. -/
theorem swap_invariance :
    ∀ (theta : Theta) (f : ℝ) (theta_extrinsic : List ℝ) (h0_bbh : ℂ),
      get_kappa theta.swap = get_kappa theta ∧
      _gen_NRTidalv2 f theta.swap theta_extrinsic h0_bbh
        = _gen_NRTidalv2 f theta theta_extrinsic h0_bbh := by
  intro theta f te h0
  refine ⟨get_kappa_swap theta, ?_⟩
  simp only [_gen_NRTidalv2, swap_m_add, get_kappa_swap, get_tidal_phase_swap,
    get_tidal_amplitude_swap, get_spin_phase_correction_eq_zero,
    get_planck_taper_eq_zero]

/-- C2: `get_spin_phase_correction` returns 0 at every frequency sample (the
spin-squared series is computed but the returned contribution is zeroed by
the source's override), and hence the combined strain of `_gen_NRTidalv2`
carries no `psi_SS` term: it equals the same expression with only the tidal
phase in the exponent. -/
theorem spin_phase_correction_zeroed :
    ∀ (f : ℝ) (theta : Theta) (theta_extrinsic : List ℝ) (h0_bbh : ℂ),
      get_spin_phase_correction f theta = 0 ∧
      _gen_NRTidalv2 f theta theta_extrinsic h0_bbh
        = ((1 - get_planck_taper f theta (get_kappa theta) : ℝ) : ℂ)
          * (h0_bbh + ((get_tidal_amplitude f theta (get_kappa theta)
                (theta_extrinsic.getD 0 0) : ℝ) : ℂ)
              * Complex.exp (Complex.I * -(h0_bbh / ((Complex.abs h0_bbh : ℝ) : ℂ))))
          * Complex.exp (Complex.I
              * -((get_tidal_phase (f * ((theta.m1 + theta.m2) * gt)) theta
                    (get_kappa theta) : ℝ) : ℂ)) := by
  intro f theta te h0
  refine ⟨rfl, ?_⟩
  simp only [_gen_NRTidalv2, get_spin_phase_correction_eq_zero, add_zero]

/-- C3: `get_planck_taper` returns 0 at every frequency sample (the taper is
computed but overridden by the source's safety override), so the window
factor `A_P = 1 - taper` used by `_gen_NRTidalv2` equals 1 at every sample. -/
theorem planck_taper_zeroed :
    ∀ (f : ℝ) (theta : Theta) (kappa : ℝ),
      get_planck_taper f theta kappa = 0 ∧
      (1 : ℝ) - get_planck_taper f theta kappa = 1 := by
  intro f theta kappa
  refine ⟨rfl, ?_⟩
  rw [get_planck_taper_eq_zero]
  ring

/-- C5: with both tidal deformabilities zero, `get_kappa` returns exactly 0,
and with that kappa both the tidal phase and the tidal amplitude vanish at
every frequency sample (the BBH limit is recovered). -/
theorem bbh_limit_zero_tidal :
    ∀ (m1 m2 chi1 chi2 f dL : ℝ),
      get_kappa ⟨m1, m2, chi1, chi2, 0, 0⟩ = 0 ∧
      get_tidal_phase f ⟨m1, m2, chi1, chi2, 0, 0⟩
          (get_kappa ⟨m1, m2, chi1, chi2, 0, 0⟩) = 0 ∧
      get_tidal_amplitude f ⟨m1, m2, chi1, chi2, 0, 0⟩
          (get_kappa ⟨m1, m2, chi1, chi2, 0, 0⟩) dL = 0 := by
  intro m1 m2 c1 c2 f dL
  have hk := get_kappa_lambda_zero m1 m2 c1 c2
  exact ⟨hk, by rw [hk, get_tidal_phase_kappa_zero],
    by rw [hk, get_tidal_amplitude_kappa_zero]⟩

/-- Modelled from the spec (claim C4's wording, for comparison with the
implemented `get_tidal_amplitude`): the tidal amplitude with the total mass
converted ONCE to geometrized time units, `M_sec = (m1 + m2) * gt`. -/
def get_tidal_amplitude_spec (f : ℝ) (theta : Theta) (kappa dL : ℝ) : ℝ :=
  let M_sec := (theta.m1 + theta.m2) * gt
  let x := (PI * M_sec * f) ^ ((2.0 : ℝ) / 3.0)
  let n1 := (4.157407407407407 : ℝ)
  let n289 := (2519.111111111111 : ℝ)
  let d := (13477.8073677 : ℝ)
  let poly := (1.0 + n1 * x + n289 * x ^ (2.89 : ℝ)) / (1 + d * x ^ (4.0 : ℝ))
  let ampT := -(9.0 * kappa) * x ^ (3.25 : ℝ) * poly
  let dist_s := dL * m_per_Mpc / C
  ampT / dist_s

/-- C4 (evidence of the code bug): the implemented `get_tidal_amplitude`
equals the spec's amplitude formula evaluated with both masses already
multiplied by `gt` — the source geometrizes the total mass twice
(`M_s = m1*gt + m2*gt` and then `M_sec = M_s * gt`), not once as the claim
states — and `gt ≠ 1`, so the two mass scales genuinely differ. -/
theorem tidal_amplitude_double_geometrization :
    (∀ (f : ℝ) (theta : Theta) (kappa dL : ℝ),
      get_tidal_amplitude f theta kappa dL
        = get_tidal_amplitude_spec f ⟨theta.m1 * gt, theta.m2 * gt, theta.chi1,
            theta.chi2, theta.lambda1, theta.lambda2⟩ kappa dL)
    ∧ gt ≠ 1 := by
  constructor
  · intro f theta kappa dL
    rfl
  · norm_num [gt]

/-- C6: for an approximant string other than "IMRPhenomD", `gen_NRTidalv2`
returns an all-zero complex strain array of the same length as the input
frequency grid (and, being a total function, raises no error). -/
theorem unrecognized_approximant_zero_output
    (bbh_gen : List ℝ → List ℝ → ℝ → List ℂ) (ms_conv : ℝ → ℝ → ℝ × ℝ)
    (f : List ℝ) (params : List ℝ) (f_ref : ℝ) (IMRphenom : String)
    (h : IMRphenom ≠ "IMRPhenomD") :
    gen_NRTidalv2 bbh_gen ms_conv f params f_ref IMRphenom
      = List.replicate f.length 0 := by
  simp only [gen_NRTidalv2, if_neg h]
  simp

/-- Witness for C6 at a concrete unrecognized approximant string. -/
theorem unrecognized_approximant_zero_output_witness :
    gen_NRTidalv2 (fun _ _ _ => []) (fun _ _ => (0, 0)) [1, 2] [] 0 "TaylorF2"
      = List.replicate 2 0 :=
  unrecognized_approximant_zero_output _ _ _ _ _ _ (by decide)

/-- C7: `_compute_quadparam_octparam` takes the low-deformability polynomial
branch for every `0 ≤ lambda_ ≤ 1` (both boundaries inclusive), and at
`lambda_ = 0` the branch gives `log_quadparam = 1`, hence
`quadparam = exp 1 - 1` exactly — which is not 0. -/
theorem quadparam_low_branch_boundary :
    (∀ lambda_ : ℝ, 0 ≤ lambda_ → lambda_ ≤ 1 →
      ( _compute_quadparam_octparam lambda_).1
        = Real.exp (1 + lambda_ * (0.427688866723244
            + lambda_ * (-0.324336526985068 + lambda_ * 0.1107439432180572))) - 1)
    ∧ ( _compute_quadparam_octparam 0).1 = Real.exp 1 - 1
    ∧ ( _compute_quadparam_octparam 0).1 ≠ 0 := by
  have hb : ∀ lambda_ : ℝ, 0 ≤ lambda_ → lambda_ ≤ 1 →
      ( _compute_quadparam_octparam lambda_).1
        = Real.exp (1 + lambda_ * (0.427688866723244
            + lambda_ * (-0.324336526985068 + lambda_ * 0.1107439432180572))) - 1 := by
    intro l h0 h1
    simp only [_compute_quadparam_octparam]
    rw [if_pos ⟨h0, h1⟩]
  have h0' : ( _compute_quadparam_octparam 0).1 = Real.exp 1 - 1 := by
    rw [hb 0 le_rfl zero_le_one]
    norm_num
  refine ⟨hb, h0', ?_⟩
  rw [h0']
  have h2 := Real.add_one_le_exp (1 : ℝ)
  intro hc
  linarith

/-- Witness for C7's polynomial-branch equation at the inclusive upper
boundary `lambda_ = 1`. -/
theorem quadparam_low_branch_boundary_witness :
    ( _compute_quadparam_octparam 1).1
      = Real.exp (1 + 1 * (0.427688866723244
          + 1 * (-0.324336526985068 + 1 * 0.1107439432180572))) - 1 :=
  quadparam_low_branch_boundary.1 1 zero_le_one le_rfl

/-- C8: for fixed positive masses, the dimensionless angular merger frequency
`Momega_merger` computed inside `_get_merger_frequency` is strictly
decreasing in kappa on `kappa ≥ 0`; the returned merger frequency is
`Momega_merger` divided by the geometrized total mass and by `2 * PI`. -/
theorem momega_merger_strict_anti (theta : Theta) (kappa1 kappa2 : ℝ)
    (hm1 : 0 < theta.m1) (hm2 : 0 < theta.m2) (h1 : 0 ≤ kappa1)
    (h12 : kappa1 < kappa2) :
    Momega_merger theta kappa2 < Momega_merger theta kappa1 ∧
    ∀ kappa, _get_merger_frequency theta (some kappa)
      = Momega_merger theta kappa / (theta.m1 * gt + theta.m2 * gt) / (2 * PI) := by
  constructor
  · have hgt : (0 : ℝ) < gt := by norm_num [gt]
    have hm1s : 0 < theta.m1 * gt := mul_pos hm1 hgt
    have hm2s : 0 < theta.m2 * gt := mul_pos hm2 hgt
    have hMs : 0 < theta.m1 * gt + theta.m2 * gt := by linarith
    have hk2 : 0 ≤ kappa2 := le_of_lt (lt_of_le_of_lt h1 h12)
    have e1 : kappa1 ^ (2.0 : ℝ) = kappa1 * kappa1 := by
      rw [show (2.0 : ℝ) = ((2 : ℕ) : ℝ) by norm_num, Real.rpow_natCast, pow_two]
    have e2 : kappa2 ^ (2.0 : ℝ) = kappa2 * kappa2 := by
      rw [show (2.0 : ℝ) = ((2 : ℕ) : ℝ) by norm_num, Real.rpow_natCast, pow_two]
    simp only [Momega_merger]
    rw [e1, e2]
    have hX : 0 < theta.m2 * gt / (theta.m1 * gt + theta.m2 * gt)
        / (theta.m1 * gt / (theta.m1 * gt + theta.m2 * gt)) :=
      div_pos (div_pos hm2s hMs) (div_pos hm1s hMs)
    have hQ : 0 < (0.3586 : ℝ) * Real.sqrt (theta.m2 * gt / (theta.m1 * gt + theta.m2 * gt)
        / (theta.m1 * gt / (theta.m1 * gt + theta.m2 * gt))) := by
      have hs := Real.sqrt_pos.mpr hX
      nlinarith
    have hden1 : (0 : ℝ) < 1.0 + 7.54224145e-2 * kappa1
        + 2.23626859e-4 * (kappa1 * kappa1) := by nlinarith [mul_nonneg h1 h1]
    have hden2 : (0 : ℝ) < 1.0 + 7.54224145e-2 * kappa2
        + 2.23626859e-4 * (kappa2 * kappa2) := by nlinarith [mul_nonneg hk2 hk2]
    refine mul_lt_mul_of_pos_left ?_ hQ
    rw [div_lt_div_iff₀ hden2 hden1]
    nlinarith [mul_nonneg h1 (sub_nonneg.mpr h12.le),
      mul_nonneg hk2 (sub_nonneg.mpr h12.le),
      mul_nonneg (mul_nonneg h1 hk2) (sub_nonneg.mpr h12.le)]
  · intro kappa
    rfl

/-- Witness for C8 at equal unit masses, kappa going from 0 to 1. -/
theorem momega_merger_strict_anti_witness :
    Momega_merger ⟨1, 1, 0, 0, 0, 0⟩ 1 < Momega_merger ⟨1, 1, 0, 0, 0, 0⟩ 0 :=
  (momega_merger_strict_anti ⟨1, 1, 0, 0, 0, 0⟩ 0 1 (by norm_num) (by norm_num)
    le_rfl (by norm_num)).1

/-! ## Polarization projection -/

lemma cross_plus_pointwise (z : ℂ) (c : ℝ) :
    Complex.abs (-Complex.I * z * ((c : ℝ) : ℂ))
      ≤ Complex.abs (z * (((1 : ℝ) / 2 * (1 + c ^ (2 : ℕ)) : ℝ) : ℂ))
    ∧ (Complex.abs (-Complex.I * z * ((c : ℝ) : ℂ))
        = Complex.abs (z * (((1 : ℝ) / 2 * (1 + c ^ (2 : ℕ)) : ℝ) : ℂ))
      → |c| = 1 ∨ z = 0) := by
  have h1 : Complex.abs (-Complex.I * z * ((c : ℝ) : ℂ)) = Complex.abs z * |c| := by
    rw [map_mul, map_mul, Complex.abs.map_neg, Complex.abs_I, one_mul,
      Complex.abs_ofReal]
  have h2 : Complex.abs (z * (((1 : ℝ) / 2 * (1 + c ^ (2 : ℕ)) : ℝ) : ℂ))
      = Complex.abs z * (1 / 2 * (1 + c ^ 2)) := by
    rw [map_mul, Complex.abs_ofReal, abs_of_nonneg (by positivity)]
  have hkey : |c| ≤ 1 / 2 * (1 + c ^ 2) := by
    nlinarith [sq_nonneg (|c| - 1), sq_abs c, abs_nonneg c]
  constructor
  · rw [h1, h2]
    exact mul_le_mul_of_nonneg_left hkey (Complex.abs.nonneg z)
  · intro he
    rw [h1, h2] at he
    by_cases hz : z = 0
    · exact Or.inr hz
    · left
      have hzz : Complex.abs z ≠ 0 := Complex.abs.ne_zero hz
      have hc : |c| = 1 / 2 * (1 + c ^ 2) := mul_left_cancel₀ hzz he
      have hsq : (|c| - 1) ^ 2 = 0 := by nlinarith [sq_abs c]
      have hz1 : |c| - 1 = 0 := by
        exact (pow_eq_zero_iff (by norm_num)).mp hsq
      linarith

/-- C10: at every frequency sample, the cross polarization returned by
`gen_NRTidalv2_hphc` is no larger in magnitude than the plus polarization,
and equality at a sample forces `|cos iota| = 1` or a vanishing combined
strain at that sample. -/
theorem cross_abs_le_plus_abs
    (bbh_gen : List ℝ → List ℝ → ℝ → List ℂ) (ms_conv : ℝ → ℝ → ℝ × ℝ)
    (f : List ℝ) (params : List ℝ) (f_ref : ℝ) (IMRphenom : String) (k : ℕ) :
    Complex.abs
        (((gen_NRTidalv2_hphc bbh_gen ms_conv f params f_ref IMRphenom).2).getD k 0)
      ≤ Complex.abs
        (((gen_NRTidalv2_hphc bbh_gen ms_conv f params f_ref IMRphenom).1).getD k 0)
    ∧ (Complex.abs
          (((gen_NRTidalv2_hphc bbh_gen ms_conv f params f_ref IMRphenom).2).getD k 0)
        = Complex.abs
          (((gen_NRTidalv2_hphc bbh_gen ms_conv f params f_ref IMRphenom).1).getD k 0)
      → |Real.cos ((params.getLast?).getD 0)| = 1
        ∨ (gen_NRTidalv2 bbh_gen ms_conv f params.dropLast f_ref IMRphenom).getD k 0
            = 0) := by
  simp only [gen_NRTidalv2_hphc]
  cases hmem : (gen_NRTidalv2 bbh_gen ms_conv f params.dropLast f_ref IMRphenom)[k]? with
  | none =>
    simp [List.getD_eq_getElem?_getD, List.getElem?_map, hmem]
  | some z =>
    simp only [List.getD_eq_getElem?_getD, List.getElem?_map, hmem, Option.map_some',
      Option.getD_some]
    exact cross_plus_pointwise z (Real.cos ((params.getLast?).getD 0))

/-- C9 (counterexample): at inclination exactly 0 the cross polarization is
not the zero array: with a stub BBH generator returning the constant strain
1 and zero tidal deformabilities, `hc = [-i]`, not `[0]`. -/
theorem hphc_inclination_zero_hc_counterexample :
    (gen_NRTidalv2_hphc (fun _ _ _ => [(1 : ℂ)]) (fun _ _ => ((1 : ℝ), (1 : ℝ)))
        [(100 : ℝ)] [1, 0.25, 0, 0, 0, 0, 1, 0, 0, 0] 0 "IMRPhenomD").2
      ≠ [(0 : ℂ)] := by
  have hdl : ([1, 0.25, 0, 0, 0, 0, 1, 0, 0, 0] : List ℝ).dropLast
      = [1, 0.25, 0, 0, 0, 0, 1, 0, 0] := rfl
  have hgen : gen_NRTidalv2 (fun _ _ _ => [(1 : ℂ)]) (fun _ _ => ((1 : ℝ), (1 : ℝ)))
      [(100 : ℝ)] ([1, 0.25, 0, 0, 0, 0, 1, 0, 0, 0] : List ℝ).dropLast 0 "IMRPhenomD"
      = [(1 : ℂ)] := by
    rw [hdl]
    simp [gen_NRTidalv2, gen_scalar_bbh_limit]
  have hgl : ((([1, 0.25, 0, 0, 0, 0, 1, 0, 0, 0] : List ℝ).getLast?).getD 0 : ℝ)
      = 0 := rfl
  simp only [gen_NRTidalv2_hphc, hgen, hgl, Real.cos_zero]
  simp [Complex.I_ne_zero]

/-- C9 (amended): at inclination exactly 0, `gen_NRTidalv2_hphc` returns
`hp` equal to the combined strain `h0` exactly, and `hc` equal to `-i` times
`h0` (so `|hc| = |h0|`, not 0). -/
theorem hphc_inclination_zero_amended
    (bbh_gen : List ℝ → List ℝ → ℝ → List ℂ) (ms_conv : ℝ → ℝ → ℝ × ℝ)
    (f : List ℝ) (params : List ℝ) (f_ref : ℝ) (IMRphenom : String)
    (h : ((params.getLast?).getD 0 : ℝ) = 0) :
    (gen_NRTidalv2_hphc bbh_gen ms_conv f params f_ref IMRphenom).1
      = gen_NRTidalv2 bbh_gen ms_conv f params.dropLast f_ref IMRphenom
    ∧ (gen_NRTidalv2_hphc bbh_gen ms_conv f params f_ref IMRphenom).2
      = (gen_NRTidalv2 bbh_gen ms_conv f params.dropLast f_ref IMRphenom).map
          (fun z => -Complex.I * z) := by
  simp only [gen_NRTidalv2_hphc, h, Real.cos_zero]
  norm_num

/-- Witness for the amended C9 at a concrete zero-inclination input. -/
theorem hphc_inclination_zero_amended_witness :
    (gen_NRTidalv2_hphc (fun _ _ _ => []) (fun _ _ => ((0 : ℝ), (0 : ℝ)))
        [] [(0 : ℝ)] 0 "x").1
      = gen_NRTidalv2 (fun _ _ _ => []) (fun _ _ => ((0 : ℝ), (0 : ℝ)))
        [] ([(0 : ℝ)]).dropLast 0 "x"
    ∧ (gen_NRTidalv2_hphc (fun _ _ _ => []) (fun _ _ => ((0 : ℝ), (0 : ℝ)))
        [] [(0 : ℝ)] 0 "x").2
      = (gen_NRTidalv2 (fun _ _ _ => []) (fun _ _ => ((0 : ℝ), (0 : ℝ)))
          [] ([(0 : ℝ)]).dropLast 0 "x").map (fun z => -Complex.I * z) :=
  hphc_inclination_zero_amended _ _ _ _ _ _ rfl

end NRTidalv2
